import Mathlib

/-!
# Transcript Timestamp Index & Segment Query Engine — shallow embedding

This file embeds the word-level transcript search and time-segment
selection subsystem of the audio-analyzer repository:

* `handleSearch`      — `TranscriptionTab.handleSearch` (timestamp search with
  `toFixed(1)`-keyed de-duplication, 50-result cap, 1-based `index`);
* `handleSearchWord`  — `AudioAnalyzer.handleSearchWord` (timestamp search with
  `|Δstart| < 0.1` de-duplication, 50-result cap);
* `validateTimeSegment`, `handleUseFullAudioChange`, `handleTimeChange`,
  `handleCreateSegment` — the segment selector of `NewAudioDialog.tsx`;
* `canTranscribe`, `transcribeRequest` — the transcription gating and request
  payload of `AudioAnalyzer.tsx`.

JavaScript strings are modelled as lists of characters (`JStr`), JavaScript
numbers as `JSNum` (NaN, ±Infinity, or an exact rational — the rational stands
for the IEEE double; all values appearing in the verified claims are exactly
representable).  `parseFloat` follows the ECMAScript algorithm restricted to
ASCII whitespace and plain decimal/`Infinity` literals, which covers every
input form the component receives.
-/

namespace AudioApp

/-- A JavaScript string, modelled as its list of characters. -/
abbrev JStr := List Char

/-- `String.prototype.toLowerCase`, character-wise (ASCII case mapping). -/
def jsToLower (s : JStr) : JStr := s.map Char.toLower

/-- `String.prototype.trim`: strip leading and trailing whitespace. -/
def jsTrim (s : JStr) : JStr :=
  ((s.dropWhile Char.isWhitespace).reverse.dropWhile Char.isWhitespace).reverse

/-- `hay.includes(ned)`: substring containment test. -/
def jsIncludes (hay ned : JStr) : Bool := decide (ned <:+: hay)

/-- A JavaScript number: NaN, an infinity, or a finite value (modelled as an
exact rational). -/
inductive JSNum where
  | nan : JSNum
  | posInf : JSNum
  | negInf : JSNum
  | fin : ℚ → JSNum
deriving DecidableEq

/-- `Number.isNaN`. -/
def JSNum.isNaN : JSNum → Bool
  | .nan => true
  | _ => false

/-- The JavaScript `<` comparison (false whenever an operand is NaN). -/
def jsLt : JSNum → JSNum → Bool
  | .fin p, .fin q => decide (p < q)
  | .fin _, .posInf => true
  | .negInf, .fin _ => true
  | .negInf, .posInf => true
  | _, _ => false

/-- The JavaScript `<=` comparison (false whenever an operand is NaN). -/
def jsLe : JSNum → JSNum → Bool
  | .fin p, .fin q => decide (p ≤ q)
  | .fin _, .posInf => true
  | .negInf, .fin _ => true
  | .negInf, .posInf => true
  | .posInf, .posInf => true
  | .negInf, .negInf => true
  | _, _ => false

/-- JavaScript truthiness of a number: NaN and ±0 are falsy. -/
def JSNum.truthy : JSNum → Bool
  | .nan => false
  | .fin q => !(q == 0)
  | _ => true

/-- `a || b` on numbers: `a` if truthy, else `b`. -/
def jsOr (a b : JSNum) : JSNum := if a.truthy then a else b

/-- Numeric value of an ASCII digit. -/
def digitVal (c : Char) : ℕ := c.toNat - 48

/-- The natural number denoted by a list of decimal digit characters. -/
def digitsToNat (l : List Char) : ℕ := l.foldl (fun a c => 10 * a + digitVal c) 0

/-- Sign-and-digits part of an exponent suffix, after the `e`/`E`. -/
def parseExpTail : List Char → ℤ
  | '+' :: r => (digitsToNat (r.takeWhile Char.isDigit) : ℤ)
  | '-' :: r =>
    if (r.takeWhile Char.isDigit).isEmpty then 0
    else -(digitsToNat (r.takeWhile Char.isDigit) : ℤ)
  | r => (digitsToNat (r.takeWhile Char.isDigit) : ℤ)

/-- Parse an optional exponent suffix (`e`/`E`, optional sign, digits) as in
`parseFloat`; an exponent with no digits is ignored (JS parses the longest
valid literal prefix, so `"1e"` denotes `1`). -/
def parseExp (l : List Char) : ℤ :=
  match l with
  | 'e' :: r => parseExpTail r
  | 'E' :: r => parseExpTail r
  | _ => 0

/-- Parse an unsigned decimal literal prefix (`digits [. digits] [exp]`);
`none` when no digit is present before the exponent.  The value follows the
ECMAScript definition of the literal's mathematical value,
`mantissa * 10 ^ (exponent - fractionLength)`, built here as one exact
fraction. -/
def parseDec (l : List Char) : Option ℚ :=
  let intPart := l.takeWhile Char.isDigit
  let r1 := l.dropWhile Char.isDigit
  let fracPart := match r1 with
    | '.' :: r => r.takeWhile Char.isDigit
    | _ => []
  let r2 := match r1 with
    | '.' :: r => r.dropWhile Char.isDigit
    | _ => r1
  if intPart.isEmpty && fracPart.isEmpty then none
  else
    let mantissa := digitsToNat (intPart ++ fracPart)
    let e := parseExp r2
    some (mkRat (mantissa * 10 ^ e.toNat) (10 ^ (fracPart.length + (-e).toNat)))

/-- ECMAScript `parseFloat`: skip leading whitespace, read an optional sign,
then either `Infinity` or a decimal literal prefix; NaN when nothing parses. -/
def parseFloat (s : JStr) : JSNum :=
  let t := s.dropWhile Char.isWhitespace
  let neg : Bool := match t with
    | '-' :: _ => true
    | _ => false
  let t2 : List Char := match t with
    | '-' :: r => r
    | '+' :: r => r
    | r => r
  if List.isPrefixOf ("Infinity".data) t2 then
    if neg then .negInf else .posInf
  else
    match parseDec t2 with
    | none => .nan
    | some q => .fin (if neg then -q else q)

/-- The tenths rounding performed by `toFixed(1)`: `⌊10x + 1/2⌋` (nearest
tenth, ties to the larger candidate), computed on the numerator and
denominator directly. -/
def round10 (q : ℚ) : ℤ := (20 * q.num + q.den) / (2 * (q.den : ℤ))

/-- The key under which `handleSearch` de-duplicates a start time:
`start.toFixed(1)` as a string.  For the doubles in range the string is
determined by the value rounded to tenths together with whether it prints a
negative sign (`"-0.0"` differs from `"0.0"`). -/
def toFixed1Key (q : ℚ) : ℤ × Bool :=
  (round10 q, decide (q < 0) && (round10 q == 0))

/-- One `{ word, start, end }` record of a transcription.  The source field
`end` is a Lean keyword and is called `stop` here. -/
structure WordTimestamp where
  word : JStr
  start : ℚ
  stop : ℚ
deriving DecidableEq

/-- One `{ word, start, end, index }` search match (`index` is 1-based, over
the full timestamp sequence). -/
structure SearchResult where
  word : JStr
  start : ℚ
  stop : ℚ
  index : ℕ
deriving DecidableEq

/-- The `forEach` loop body of `TranscriptionTab.handleSearch`: walk the
enumerated timestamps, keeping the first match for each unseen
`toFixed(1)` key. -/
def searchLoop (term : JStr) : List (ℕ × WordTimestamp) → List (ℤ × Bool) → List SearchResult
  | [], _ => []
  | (i, w) :: rest, seen =>
    if jsIncludes (jsToLower w.word) term then
      if toFixed1Key w.start ∈ seen then
        searchLoop term rest seen
      else
        ⟨w.word, w.start, w.stop, i + 1⟩ :: searchLoop term rest (toFixed1Key w.start :: seen)
    else
      searchLoop term rest seen

/-- `TranscriptionTab.handleSearch` (src/unnamed/part_002): trim and lower the
query; empty query or empty index yields no results; otherwise collect
matches (substring, case-insensitive) de-duplicated by `start.toFixed(1)` and
return the first 50. -/
def handleSearch (query : JStr) (ts : List WordTimestamp) : List SearchResult :=
  let term := jsToLower (jsTrim query)
  if term.isEmpty then []
  else if ts.isEmpty then []
  else (searchLoop term ts.enum []).take 50

/-- The `findIndex` predicate of `handleSearchWord`:
`Math.abs(m2.start - m.start) < 0.1`, written on numerators and denominators
(`wtClose_iff` below recovers the textbook form `|a - b| < 1/10`). -/
def wtClose (a b : WordTimestamp) : Bool :=
  decide (10 * (a.start.num * (b.start.den : ℤ) - b.start.num * a.start.den).natAbs <
    a.start.den * b.start.den)

/-- `AudioAnalyzer.handleSearchWord` (src/unnamed/part_007): filter matching
words, drop any match that is not the first one within 0.1 s of itself
(`filter`/`findIndex` over the matches array), return the first 50. -/
def handleSearchWord (query : JStr) (ts : List WordTimestamp) : List WordTimestamp :=
  if (jsTrim query).isEmpty || ts.isEmpty then []
  else
    let term := jsTrim (jsToLower query)
    let matched := ts.filter fun w => jsIncludes (jsToLower w.word) term
    let unique :=
      (matched.enum.filter fun p => matched.findIdx (fun m2 => wtClose m2 p.2) == p.1).map
        Prod.snd
    unique.take 50

/-- The segment-selector state of `NewAudioDialog.tsx`: the checkbox, the two
raw text-field values, and the probed duration (`null` until known). -/
structure DialogState where
  useFullAudio : Bool
  startTime : JStr
  endTime : JStr
  audioDuration : Option ℚ
deriving DecidableEq

/-- `NewAudioDialog.validateTimeSegment`, numeric core: the checks performed
on the already-parsed values. -/
def validateVals (useFullAudio : Bool) (start stop : JSNum) (audioDuration : Option ℚ) : Bool :=
  if useFullAudio then true
  else if start.isNaN || stop.isNaN then false
  else if jsLt start (.fin 0) || jsLe stop start then false
  else
    match audioDuration with
    | some d => if !(d == 0) && jsLt (.fin d) stop then false else true
    | none => true

/-- `NewAudioDialog.validateTimeSegment`: parse the two fields with
`parseFloat` and apply the checks (`isNaN`, `start < 0 || end <= start`,
`audioDuration && end > audioDuration`). -/
def validateTimeSegment (s : DialogState) : Bool :=
  validateVals s.useFullAudio (parseFloat s.startTime) (parseFloat s.endTime) s.audioDuration

/-- First `k ≤ 63` such that `d` divides `10^k`, if any (for a double-valued
duration the denominator is a power of two, so such a `k` always exists). -/
def decExp (d : ℕ) : Option ℕ := (List.range 64).find? fun k => decide (d ∣ 10 ^ k)

/-- Decimal digits of a nonnegative rational whose denominator divides a
power of ten (the shortest decimal expansion, matching `Number.toString` for
the doubles in range); a `num/den` fallback keeps the function total on
rationals that are not decimal fractions (unreachable for double values). -/
def ratToStrNN (q : ℚ) : JStr :=
  let k := (decExp q.den).getD 0
  if (q * (10 : ℚ) ^ k).den = 1 then
    let ds0 := Nat.toDigits 10 (q * (10 : ℚ) ^ k).num.natAbs
    if k = 0 then ds0
    else
      let ds := List.replicate (k + 1 - ds0.length) '0' ++ ds0
      ds.take (ds.length - k) ++ '.' :: ds.drop (ds.length - k)
  else
    Nat.toDigits 10 q.num.natAbs ++ '/' :: Nat.toDigits 10 q.den

/-- `Number.prototype.toString` for the values the dialog stringifies. -/
def numToString (q : ℚ) : JStr :=
  if q < 0 then '-' :: ratToStrNN (-q) else ratToStrNN q

/-- `NewAudioDialog.handleUseFullAudioChange`: set the flag; when checking the
box with a truthy (known, nonzero) duration, force `startTime` to `"0"` and
`endTime` to the duration's string. -/
def handleUseFullAudioChange (checked : Bool) (s : DialogState) : DialogState :=
  match s.audioDuration with
  | some d =>
    if checked && !(d == 0) then
      { s with useFullAudio := checked, startTime := ['0'], endTime := numToString d }
    else
      { s with useFullAudio := checked }
  | none => { s with useFullAudio := checked }

/-- Which field a `handleTimeChange` edit targets (`'start' | 'end'`). -/
inductive TimeField where
  | start : TimeField
  | stop : TimeField
deriving DecidableEq

/-- `NewAudioDialog.handleTimeChange`: store the raw string verbatim and
uncheck `useFullAudio` if it was checked. -/
def handleTimeChange (field : TimeField) (value : JStr) (s : DialogState) : DialogState :=
  let s1 := match field with
    | .start => { s with startTime := value }
    | .stop => { s with endTime := value }
  if s1.useFullAudio then { s1 with useFullAudio := false } else s1

/-- The time-segment fields that `NewAudioDialog.handleCreate` writes into the
main state (`startTime: parseFloat(startTime) || 0`, etc.). -/
structure CreatedSegment where
  useFullAudio : Bool
  startTime : JSNum
  endTime : JSNum
  audioDuration : Option ℚ
deriving DecidableEq

/-- The segment slice of `NewAudioDialog.handleCreate`: parse each field,
coercing falsy parse results (NaN, ±0) to 0 via `|| 0`. -/
def handleCreateSegment (s : DialogState) : CreatedSegment :=
  { useFullAudio := s.useFullAudio
    startTime := jsOr (parseFloat s.startTime) (.fin 0)
    endTime := jsOr (parseFloat s.endTime) (.fin 0)
    audioDuration := s.audioDuration }

/-- The slice of `AudioAnalyzerState` that the transcription path reads. -/
structure AState where
  audioFilePath : Option JStr
  modelLoaded : Bool
  isTranscribing : Bool
  useFullAudio : Bool
  startTime : JSNum
  endTime : JSNum
  audioDuration : Option ℚ
deriving DecidableEq

/-- Truthiness of `string | null` (`null` and `""` are falsy). -/
def strTruthy : Option JStr → Bool
  | none => false
  | some s => !s.isEmpty

/-- `AudioAnalyzer.canTranscribe`:
`state.audioFilePath && state.modelLoaded && !state.isTranscribing`. -/
def canTranscribe (s : AState) : Bool :=
  strTruthy s.audioFilePath && s.modelLoaded && !s.isTranscribing

/-- The range-related fields of the `/api/transcribe` request body. -/
structure TranscribeRequest where
  useFullAudio : Bool
  startTime : JSNum
  endTime : JSNum
deriving DecidableEq

/-- The range fields `AudioAnalyzer.handleTranscribe` submits: the state's
values, forwarded verbatim. -/
def transcribeRequest (s : AState) : TranscribeRequest :=
  { useFullAudio := s.useFullAudio, startTime := s.startTime, endTime := s.endTime }

/-! ## Helper lemmas -/

/-- Trimming a string yields an infix of it. -/
lemma jsTrim_isInfix (s : JStr) : jsTrim s <:+: s := by
  unfold jsTrim
  have h1 : ((s.dropWhile Char.isWhitespace).reverse.dropWhile Char.isWhitespace).reverse <+:
      s.dropWhile Char.isWhitespace := by
    rw [← List.reverse_suffix]
    simpa using List.dropWhile_suffix (l := (s.dropWhile Char.isWhitespace).reverse)
      Char.isWhitespace
  exact h1.isInfix.trans (List.dropWhile_suffix Char.isWhitespace).isInfix

/-- A rational's numerator, as a rational, is the value times the denominator. -/
lemma rat_num_eq (q : ℚ) : (q.num : ℚ) = q * q.den := by
  have hden : (q.den : ℚ) ≠ 0 := by
    exact_mod_cast q.den_ne_zero
  exact (div_eq_iff hden).mp q.num_div_den

/-- `round10` is rounding to the nearest tenth, ties upward. -/
lemma round10_eq_floor (q : ℚ) : round10 q = ⌊q * 10 + 1 / 2⌋ := by
  have hden : ((2 * q.den : ℕ) : ℚ) ≠ 0 := by
    exact_mod_cast Nat.mul_ne_zero two_ne_zero q.den_ne_zero
  have h : q * 10 + 1 / 2 = ((20 * q.num + q.den : ℤ) : ℚ) / ((2 * q.den : ℕ) : ℚ) := by
    rw [eq_div_iff hden]
    push_cast
    rw [rat_num_eq q]
    ring
  rw [round10, h, Rat.floor_intCast_div_natCast]
  push_cast
  ring_nf

/-- The integer comparison in `wtClose` is exactly `|a.start - b.start| < 0.1`. -/
lemma wtClose_iff (a b : WordTimestamp) :
    wtClose a b = true ↔ |a.start - b.start| < 1 / 10 := by
  have hD : (0 : ℚ) < ((a.start.den * b.start.den : ℕ) : ℚ) := by
    exact_mod_cast Nat.mul_pos a.start.den_pos b.start.den_pos
  have hsub : a.start - b.start =
      ((a.start.num * b.start.den - b.start.num * a.start.den : ℤ) : ℚ) /
        ((a.start.den * b.start.den : ℕ) : ℚ) := by
    rw [eq_div_iff (ne_of_gt hD)]
    push_cast
    rw [rat_num_eq a.start, rat_num_eq b.start]
    ring
  rw [wtClose, decide_eq_true_eq, hsub, abs_div, abs_of_pos hD,
    div_lt_div_iff₀ hD (by norm_num : (0 : ℚ) < 10), one_mul, ← Int.cast_abs,
    ← Int.natCast_natAbs, Nat.mul_comm 10]
  exact_mod_cast Iff.rfl

/-- No result produced by `searchLoop` carries a key already in `seen`. -/
lemma searchLoop_keys_not_mem (term : JStr) :
    ∀ (l : List (ℕ × WordTimestamp)) (seen : List (ℤ × Bool)) (r : SearchResult),
      r ∈ searchLoop term l seen → toFixed1Key r.start ∉ seen := by
  intro l
  induction l with
  | nil => intro seen r h; simp [searchLoop] at h
  | cons p rest ih =>
    intro seen r h
    obtain ⟨i, w⟩ := p
    simp only [searchLoop] at h
    by_cases h1 : jsIncludes (jsToLower w.word) term
    · rw [if_pos h1] at h
      by_cases h2 : toFixed1Key w.start ∈ seen
      · rw [if_pos h2] at h
        exact ih seen r h
      · rw [if_neg h2] at h
        rcases List.mem_cons.mp h with h3 | h3
        · subst h3
          exact h2
        · intro hc
          exact ih _ r h3 (List.mem_cons_of_mem _ hc)
    · rw [if_neg h1] at h
      exact ih seen r h

/-- Results produced by `searchLoop` have pairwise distinct `toFixed(1)` keys. -/
lemma searchLoop_pairwise_keys (term : JStr) :
    ∀ (l : List (ℕ × WordTimestamp)) (seen : List (ℤ × Bool)),
      List.Pairwise (fun r1 r2 => toFixed1Key r1.start ≠ toFixed1Key r2.start)
        (searchLoop term l seen) := by
  intro l
  induction l with
  | nil => intro seen; simp [searchLoop]
  | cons p rest ih =>
    intro seen
    obtain ⟨i, w⟩ := p
    simp only [searchLoop]
    by_cases h1 : jsIncludes (jsToLower w.word) term
    · rw [if_pos h1]
      by_cases h2 : toFixed1Key w.start ∈ seen
      · rw [if_pos h2]
        exact ih seen
      · rw [if_neg h2]
        refine List.Pairwise.cons ?_ (ih _)
        intro r hr he
        refine searchLoop_keys_not_mem term rest _ r hr ?_
        rw [← he]
        exact List.mem_cons_self _ _
    · rw [if_neg h1]
      exact ih seen

/-- Every `searchLoop` result is built from some enumerated input record. -/
lemma searchLoop_mem_src (term : JStr) :
    ∀ (l : List (ℕ × WordTimestamp)) (seen : List (ℤ × Bool)) (r : SearchResult),
      r ∈ searchLoop term l seen →
      ∃ p ∈ l, r = ⟨p.2.word, p.2.start, p.2.stop, p.1 + 1⟩ := by
  intro l
  induction l with
  | nil => intro seen r h; simp [searchLoop] at h
  | cons p rest ih =>
    intro seen r h
    obtain ⟨i, w⟩ := p
    simp only [searchLoop] at h
    by_cases h1 : jsIncludes (jsToLower w.word) term
    · rw [if_pos h1] at h
      by_cases h2 : toFixed1Key w.start ∈ seen
      · rw [if_pos h2] at h
        obtain ⟨p, hp, he⟩ := ih seen r h
        exact ⟨p, List.mem_cons_of_mem _ hp, he⟩
      · rw [if_neg h2] at h
        rcases List.mem_cons.mp h with h3 | h3
        · exact ⟨(i, w), List.mem_cons_self _ _, h3⟩
        · obtain ⟨p, hp, he⟩ := ih _ r h3
          exact ⟨p, List.mem_cons_of_mem _ hp, he⟩
    · rw [if_neg h1] at h
      obtain ⟨p, hp, he⟩ := ih seen r h
      exact ⟨p, List.mem_cons_of_mem _ hp, he⟩

/-- `handleSearch` results have pairwise distinct `toFixed(1)` keys. -/
lemma handleSearch_pairwise_keys (q : JStr) (ts : List WordTimestamp) :
    List.Pairwise (fun r1 r2 => toFixed1Key r1.start ≠ toFixed1Key r2.start)
      (handleSearch q ts) := by
  simp only [handleSearch]
  split
  · exact List.Pairwise.nil
  · split
    · exact List.Pairwise.nil
    · exact List.Pairwise.sublist (List.take_sublist _ _) (searchLoop_pairwise_keys _ _ _)

/-- Filtering preserves pairwise properties that hold under the filter
condition. -/
lemma pairwise_filter_of_bool {α : Type} {R : α → α → Prop} {q : α → Bool} {l : List α}
    (h : List.Pairwise (fun x y => q x = true → q y = true → R x y) l) :
    List.Pairwise R (l.filter q) := by
  induction l with
  | nil => simp
  | cons a t ih =>
    rw [List.pairwise_cons] at h
    by_cases ha : q a = true
    · rw [List.filter_cons_of_pos ha]
      refine List.Pairwise.cons ?_ (ih h.2)
      intro b hb
      exact h.1 b (List.mem_of_mem_filter hb) ha (List.of_mem_filter hb)
    · rw [List.filter_cons_of_neg (by simpa using ha)]
      exact ih h.2

/-- Any two `handleSearchWord` results are at least 0.1 s apart. -/
lemma handleSearchWord_pairwise (q : JStr) (ts : List WordTimestamp) :
    List.Pairwise (fun a b => (1 : ℚ) / 10 ≤ |a.start - b.start|) (handleSearchWord q ts) := by
  simp only [handleSearchWord]
  split
  · exact List.Pairwise.nil
  · refine List.Pairwise.sublist (List.take_sublist _ _) ?_
    rw [List.pairwise_map]
    refine pairwise_filter_of_bool ?_
    rw [List.pairwise_iff_getElem]
    intro i j hi hj hij
    rw [List.getElem_enum]
    rw [List.getElem_enum]
    intro hgi hgj
    rw [beq_iff_eq] at hgj
    have hjlen : j < (ts.filter fun w => jsIncludes (jsToLower w.word)
        (jsTrim (jsToLower q))).length := by
      simpa using hj
    have h2 := ((List.findIdx_eq hjlen).mp hgj).2 i hij
    refine not_lt.mp fun hc => ?_
    rw [← wtClose_iff] at hc
    rw [h2] at hc
    exact Bool.false_ne_true hc

/-! ## Claims -/

/-- Claim C2 (amended): `handleSearch` de-duplicates by the start time's
`toFixed(1)` key — its results have pairwise distinct keys, and among
same-key matches (scanned in stored order) only the first is kept — while
`handleSearchWord` guarantees that no two of its results have starts within
0.1 s.  For the index `[{hi, 1.00, 1.2}, {hi, 1.04, 1.3}]` the query `"hi"`
returns exactly one result under either search. -/
theorem claim_C2 :
    (∀ (q : JStr) (ts : List WordTimestamp),
        List.Pairwise (fun r1 r2 => toFixed1Key r1.start ≠ toFixed1Key r2.start)
          (handleSearch q ts)) ∧
    (∀ (q : JStr) (ts : List WordTimestamp),
        List.Pairwise (fun a b => (1 : ℚ) / 10 ≤ |a.start - b.start|)
          (handleSearchWord q ts)) ∧
    handleSearch ("hi".data) [⟨"hi".data, 1, mkRat 6 5⟩, ⟨"hi".data, mkRat 26 25, mkRat 13 10⟩] =
      [⟨"hi".data, 1, mkRat 6 5, 1⟩] ∧
    handleSearchWord ("hi".data)
        [⟨"hi".data, 1, mkRat 6 5⟩, ⟨"hi".data, mkRat 26 25, mkRat 13 10⟩] =
      [⟨"hi".data, 1, mkRat 6 5⟩] :=
  ⟨fun q ts => handleSearch_pairwise_keys q ts,
   fun q ts => handleSearchWord_pairwise q ts,
   by decide, by decide⟩

/-- Counterexample to claim C2 as stated: `handleSearch` keeps both of the
starts 1.04 and 1.06 (they round to the distinct keys 1.0 and 1.1), yet they
lie within 0.1 s of each other, so two results of one search do share a
`start` within 0.1 s. -/
theorem claim_C2_cex :
    handleSearch ("hi".data)
        [⟨"hi".data, mkRat 26 25, mkRat 6 5⟩, ⟨"hi".data, mkRat 53 50, mkRat 13 10⟩] =
      [⟨"hi".data, mkRat 26 25, mkRat 6 5, 1⟩, ⟨"hi".data, mkRat 53 50, mkRat 13 10, 2⟩] ∧
    |(mkRat 26 25 : ℚ) - mkRat 53 50| < 1 / 10 := by
  constructor
  · decide
  · rw [Rat.mkRat_eq_div, Rat.mkRat_eq_div]
    norm_num [abs_sub_lt_iff]
    rw [abs_of_pos] <;> norm_num

/-- Claim C3: both searches return at most 50 results, truncating silently;
on 75 all-matching timestamps `handleSearch` returns exactly 50 results in
ascending `start` order. -/
theorem claim_C3 :
    (∀ (q : JStr) (ts : List WordTimestamp), (handleSearch q ts).length ≤ 50) ∧
    (∀ (q : JStr) (ts : List WordTimestamp), (handleSearchWord q ts).length ≤ 50) ∧
    (handleSearch ("hi".data)
        ((List.range 75).map fun (i : ℕ) => ⟨"hi".data, (i : ℚ), (i.succ : ℚ)⟩)).length = 50 ∧
    List.Pairwise (fun a b => a.start < b.start)
      (handleSearch ("hi".data)
        ((List.range 75).map fun (i : ℕ) => ⟨"hi".data, (i : ℚ), (i.succ : ℚ)⟩)) := by
  refine ⟨?_, ?_, ?_, ?_⟩
  · intro q ts
    simp only [handleSearch]
    split
    · simp
    · split
      · simp
      · exact List.length_take_le _ _
  · intro q ts
    simp only [handleSearchWord]
    split
    · simp
    · exact List.length_take_le _ _
  · decide
  · decide

/-- Claim C4: a query that trims to nothing, or an empty timestamp index,
yields an empty result set from either search (both are total functions, so
no error is possible). -/
theorem claim_C4 :
    (∀ (q : JStr) (ts : List WordTimestamp), jsTrim q = [] → handleSearch q ts = []) ∧
    (∀ q : JStr, handleSearch q [] = []) ∧
    (∀ (q : JStr) (ts : List WordTimestamp), jsTrim q = [] → handleSearchWord q ts = []) ∧
    (∀ q : JStr, handleSearchWord q [] = []) := by
  refine ⟨?_, ?_, ?_, ?_⟩
  · intro q ts h
    simp [handleSearch, h, jsToLower]
  · intro q
    simp [handleSearch]
  · intro q ts h
    simp [handleSearchWord, h]
  · intro q
    simp [handleSearchWord]

/-- Witness for claim C4 at the whitespace query `"   "`. -/
theorem claim_C4_witness :
    jsTrim ("   ".data) = [] ∧
    handleSearch ("   ".data) [⟨"hi".data, 1, 2⟩] = [] ∧
    handleSearchWord ("   ".data) [⟨"hi".data, 1, 2⟩] = [] :=
  ⟨by decide, claim_C4.1 _ _ (by decide), claim_C4.2.2.1 _ _ (by decide)⟩

/-- Claim C9: every search result's `index` is the 1-based position of its
source record in the full timestamp sequence, and the five-word scenario
returns exactly `{word: person, start: 1.0, end: 1.4, index: 4}` for the
query `"person"`. -/
theorem claim_C9 :
    (∀ (q : JStr) (ts : List WordTimestamp) (r : SearchResult), r ∈ handleSearch q ts →
        ∃ i w, ts[i]? = some w ∧ r = ⟨w.word, w.start, w.stop, i + 1⟩) ∧
    handleSearch ("person".data)
        [⟨"Hello,".data, 0, mkRat 1 2⟩, ⟨"this".data, mkRat 7 10, mkRat 9 10⟩,
         ⟨"is".data, mkRat 9 10, 1⟩,
         ⟨"person".data, 1, mkRat 7 5⟩, ⟨"2".data, mkRat 7 5, mkRat 8 5⟩] =
      [⟨"person".data, 1, mkRat 7 5, 4⟩] := by
  constructor
  · intro q ts r hr
    simp only [handleSearch] at hr
    split at hr
    · simp at hr
    · split at hr
      · simp at hr
      · obtain ⟨p, hp, he⟩ := searchLoop_mem_src _ _ _ r (List.mem_of_mem_take hr)
        refine ⟨p.1, p.2, ?_, he⟩
        exact (List.mk_mem_enum_iff_getElem?.mp (by simpa using hp))
  · decide

/-- Witness for claim C9: the scenario's single result indeed comes from
position 4 (1-based) of the transcript. -/
theorem claim_C9_witness :
    ∃ i w,
      [⟨"Hello,".data, 0, mkRat 1 2⟩, ⟨"this".data, mkRat 7 10, mkRat 9 10⟩,
       (⟨"is".data, mkRat 9 10, 1⟩ : WordTimestamp),
       ⟨"person".data, 1, mkRat 7 5⟩, ⟨"2".data, mkRat 7 5, mkRat 8 5⟩][i]? = some w ∧
      (⟨"person".data, 1, mkRat 7 5, 4⟩ : SearchResult) = ⟨w.word, w.start, w.stop, i + 1⟩ :=
  claim_C9.1 ("person".data) _ _ (by rw [claim_C9.2]; exact List.mem_cons_self _ _)

/-- Characterization of the non-full-audio branch of the validator over
already-parsed values. -/
lemma validateVals_false_iff (st en : JSNum) (dur : Option ℚ) :
    validateVals false st en dur = true ↔
      st.isNaN = false ∧ en.isNaN = false ∧ jsLe (.fin 0) st = true ∧ jsLt st en = true ∧
        (dur = none ∨ dur = some 0 ∨ ∃ d, dur = some d ∧ jsLe en (.fin d) = true) := by
  cases st <;> cases en <;> cases dur <;>
    simp [validateVals, jsLt, jsLe, JSNum.isNaN, not_lt, not_le]
  case fin.fin.some p q d =>
    by_cases hd : d = 0
    · subst hd
      simp [not_lt, not_le]
    · simp [hd, not_lt, not_le, and_assoc]

/-- A probed duration of exactly 0 is falsy, so the duration bound is skipped
just as when the duration is unknown. -/
lemma validateVals_zero_dur (u : Bool) (st en : JSNum) :
    validateVals u st en (some 0) = validateVals u st en none := by
  cases u <;> simp [validateVals]

/-- Claim C1 (amended): `validateTimeSegment` is true unconditionally when
`useFullAudio` is set; otherwise it is true iff both fields parse to non-NaN
values (`±Infinity` is not rejected by any finiteness check), `startTime >= 0`,
`endTime > startTime`, and the duration is unknown, or zero (a falsy duration
skips the bound), or at least `endTime`.  The four concrete P6 cases for
duration 10.0 evaluate as the spec states. -/
theorem claim_C1 :
    (∀ s : DialogState, s.useFullAudio = true → validateTimeSegment s = true) ∧
    (∀ s : DialogState, s.useFullAudio = false →
      (validateTimeSegment s = true ↔
        (parseFloat s.startTime).isNaN = false ∧ (parseFloat s.endTime).isNaN = false ∧
        jsLe (.fin 0) (parseFloat s.startTime) = true ∧
        jsLt (parseFloat s.startTime) (parseFloat s.endTime) = true ∧
        (s.audioDuration = none ∨ s.audioDuration = some 0 ∨
          ∃ d, s.audioDuration = some d ∧ jsLe (parseFloat s.endTime) (.fin d) = true))) ∧
    validateTimeSegment ⟨false, "0".data, "10".data, some 10⟩ = true ∧
    validateTimeSegment ⟨false, "0".data, "10.001".data, some 10⟩ = false ∧
    validateTimeSegment ⟨false, "5".data, "5".data, some 10⟩ = false ∧
    validateTimeSegment ⟨false, "-1".data, "5".data, some 10⟩ = false := by
  refine ⟨?_, ?_, by decide, by decide, by decide, by decide⟩
  · intro s h
    rw [validateTimeSegment, h]
    rfl
  · intro s h
    rw [validateTimeSegment, h]
    exact validateVals_false_iff _ _ _

/-- Witness for claim C1: the full-audio bypass at a nonsensical state, and
the characterization at the valid state `(0, 10, duration 10)`. -/
theorem claim_C1_witness :
    validateTimeSegment ⟨true, "abc".data, "-5".data, none⟩ = true ∧
    (validateTimeSegment ⟨false, "0".data, "10".data, some 10⟩ = true ↔
      (parseFloat ("0".data)).isNaN = false ∧ (parseFloat ("10".data)).isNaN = false ∧
      jsLe (.fin 0) (parseFloat ("0".data)) = true ∧
      jsLt (parseFloat ("0".data)) (parseFloat ("10".data)) = true ∧
      ((some (10 : ℚ) = none) ∨ some (10 : ℚ) = some 0 ∨
        ∃ d, some (10 : ℚ) = some d ∧ jsLe (parseFloat ("10".data)) (.fin d) = true)) :=
  ⟨claim_C1.1 _ rfl, claim_C1.2.1 ⟨false, "0".data, "10".data, some 10⟩ rfl⟩

/-- Counterexample to claim C1 as stated: with a probed duration of exactly 0
(falsy), the validator skips the `endTime <= audioDuration` bound entirely —
it accepts `start = 1, end = 2` although the duration is known and exceeded,
where the claimed iff (duration known → `endTime <= audioDuration`) demands
false. -/
theorem claim_C1_cex :
    validateTimeSegment ⟨false, "1".data, "2".data, some 0⟩ = true ∧
    parseFloat ("2".data) = .fin 2 ∧ ¬((2 : ℚ) ≤ 0) := by
  refine ⟨by decide, by decide, by norm_num⟩

/-- Claim C10: a probed `audioDuration` of exactly 0 is falsy, so
`validateTimeSegment` behaves exactly as if the duration were unknown: the
bound check is skipped and the validator accepts any parseable pair with
`startTime >= 0 < endTime - startTime`. -/
theorem claim_C10 :
    ∀ s : DialogState, s.useFullAudio = false → s.audioDuration = some 0 →
      validateTimeSegment s = validateTimeSegment { s with audioDuration := none } ∧
      (validateTimeSegment s = true ↔
        (parseFloat s.startTime).isNaN = false ∧ (parseFloat s.endTime).isNaN = false ∧
        jsLe (.fin 0) (parseFloat s.startTime) = true ∧
        jsLt (parseFloat s.startTime) (parseFloat s.endTime) = true) := by
  intro s h1 h2
  constructor
  · rw [validateTimeSegment, validateTimeSegment, h2]
    exact validateVals_zero_dur _ _ _
  · rw [validateTimeSegment, h1, h2, validateVals_zero_dur, validateVals_false_iff]
    simp

/-- Witness for claim C10 at the state `(start 1, end 2, duration 0)`. -/
theorem claim_C10_witness :
    validateTimeSegment ⟨false, "1".data, "2".data, some 0⟩ =
      validateTimeSegment ⟨false, "1".data, "2".data, none⟩ ∧
    (validateTimeSegment ⟨false, "1".data, "2".data, some 0⟩ = true ↔
      (parseFloat ("1".data)).isNaN = false ∧ (parseFloat ("2".data)).isNaN = false ∧
      jsLe (.fin 0) (parseFloat ("1".data)) = true ∧
      jsLt (parseFloat ("1".data)) (parseFloat ("2".data)) = true) :=
  claim_C10 ⟨false, "1".data, "2".data, some 0⟩ rfl rfl

/-- Claim C5 (amended): for every word `W` and query `Q` whose lower-cased
form is a substring of `W`'s lower-cased form, provided `Q` does not trim to
the empty string (the empty-query rule takes precedence over matching),
searching `Q` against the single-record index for `W` returns exactly one
result carrying `W` with its original casing. -/
theorem claim_C5 (W Q : JStr) (h1 : jsToLower Q <:+: jsToLower W) (h2 : jsTrim Q ≠ []) :
    handleSearch Q [⟨W, 1, mkRat 3 2⟩] = [⟨W, 1, mkRat 3 2, 1⟩] := by
  have hterm : jsToLower (jsTrim Q) ≠ [] := by
    intro hc
    exact h2 (List.map_eq_nil_iff.mp hc)
  have hinc : jsIncludes (jsToLower W) (jsToLower (jsTrim Q)) = true := by
    rw [jsIncludes, decide_eq_true_eq]
    have h3 : jsToLower (jsTrim Q) <:+: jsToLower Q := (jsTrim_isInfix Q).map Char.toLower
    exact h3.trans h1
  simp only [handleSearch]
  rw [if_neg (by simpa [List.isEmpty_iff] using hterm)]
  rw [if_neg (by simp)]
  simp [List.enum, searchLoop, hinc]

/-- Witness for claim C5: query `"ELL"` against the word `"Hello"`. -/
theorem claim_C5_witness :
    jsToLower ("ELL".data) <:+: jsToLower ("Hello".data) ∧ jsTrim ("ELL".data) ≠ [] ∧
    handleSearch ("ELL".data) [⟨"Hello".data, 1, mkRat 3 2⟩] =
      [⟨"Hello".data, 1, mkRat 3 2, 1⟩] :=
  ⟨by decide, by decide, claim_C5 ("Hello".data) ("ELL".data) (by decide) (by decide)⟩

/-- Counterexample to claim C5 as stated: the empty query lower-cases to a
substring of every word, yet the search returns no results (the empty-query
rule wins), not exactly one. -/
theorem claim_C5_cex :
    jsToLower ([] : JStr) <:+: jsToLower ("hi".data) ∧
    handleSearch [] [⟨"hi".data, 1, mkRat 3 2⟩] = [] ∧
    ¬(handleSearch [] [⟨"hi".data, 1, mkRat 3 2⟩] = [⟨"hi".data, 1, mkRat 3 2, 1⟩]) := by
  refine ⟨by decide, by decide, by decide⟩

/-- Claim C6 (amended): a field value whose `parseFloat` is NaN is stored as
0 by the create step's `parseFloat(x) || 0` coercion (so is a value parsing
to 0); a value parsing to any nonzero number — including a negative one — is
stored as parsed.  `"abc"` is stored as 0; the setter is total, so no input
throws. -/
theorem claim_C6 :
    (∀ s : DialogState, (parseFloat s.startTime).isNaN = true →
        (handleCreateSegment s).startTime = .fin 0) ∧
    (∀ s : DialogState, (parseFloat s.endTime).isNaN = true →
        (handleCreateSegment s).endTime = .fin 0) ∧
    (∀ (s : DialogState) (q : ℚ), parseFloat s.startTime = .fin q → q ≠ 0 →
        (handleCreateSegment s).startTime = .fin q) ∧
    (handleCreateSegment ⟨false, "abc".data, "5".data, none⟩).startTime = .fin 0 := by
  refine ⟨?_, ?_, ?_, by decide⟩
  · intro s h
    simp only [handleCreateSegment, jsOr]
    cases hp : parseFloat s.startTime <;> simp_all [JSNum.isNaN, JSNum.truthy]
  · intro s h
    simp only [handleCreateSegment, jsOr]
    cases hp : parseFloat s.endTime <;> simp_all [JSNum.isNaN, JSNum.truthy]
  · intro s q h hq
    simp only [handleCreateSegment, jsOr]
    rw [h]
    simp [JSNum.truthy, hq]

/-- Witness for claim C6: `"abc"` in both fields is stored as 0, and `"3.5"`
is stored as the parsed 7/2. -/
theorem claim_C6_witness :
    (handleCreateSegment ⟨true, "abc".data, "xyz".data, none⟩).startTime = .fin 0 ∧
    (handleCreateSegment ⟨true, "abc".data, "xyz".data, none⟩).endTime = .fin 0 ∧
    (handleCreateSegment ⟨false, "3.5".data, "5".data, some 10⟩).startTime =
      .fin (mkRat 7 2) :=
  ⟨claim_C6.1 _ (by decide), claim_C6.2.1 _ (by decide),
   claim_C6.2.2.1 _ (mkRat 7 2) (by decide) (by decide)⟩

/-- Counterexample to claim C6 as stated: `"-1"` fails to parse as a
NON-NEGATIVE float (it parses to the negative value -1), yet it is stored as
-1, not as 0. -/
theorem claim_C6_cex :
    parseFloat ("-1".data) = .fin (-1) ∧
    (handleCreateSegment ⟨false, "-1".data, "5".data, none⟩).startTime = .fin (-1) ∧
    ((-1 : ℚ) < 0) ∧ (JSNum.fin (-1) ≠ .fin 0) := by
  refine ⟨by decide, by decide, by norm_num, by decide⟩

/-- Claim C7 (amended): the full-audio setter always records the flag; it
forces `startTime` to `"0"` and `endTime` to the duration's string only when
checking the box with a known, nonzero duration — with an unknown (or zero,
hence falsy) duration both fields are left at their previous values, not
reset.  An explicit time edit stores the raw string verbatim and always
leaves `useFullAudio` false. -/
theorem claim_C7 :
    (∀ (checked : Bool) (s : DialogState),
        (handleUseFullAudioChange checked s).useFullAudio = checked) ∧
    (∀ (s : DialogState) (d : ℚ), s.audioDuration = some d → d ≠ 0 →
        handleUseFullAudioChange true s =
          { s with useFullAudio := true, startTime := ['0'], endTime := numToString d }) ∧
    (∀ s : DialogState, s.audioDuration = none →
        handleUseFullAudioChange true s = { s with useFullAudio := true }) ∧
    (∀ s : DialogState, s.audioDuration = some 0 →
        handleUseFullAudioChange true s = { s with useFullAudio := true }) ∧
    (∀ (v : JStr) (s : DialogState),
        handleTimeChange .start v s = { s with startTime := v, useFullAudio := false }) ∧
    (∀ (v : JStr) (s : DialogState),
        handleTimeChange .stop v s = { s with endTime := v, useFullAudio := false }) := by
  refine ⟨?_, ?_, ?_, ?_, ?_, ?_⟩
  · intro checked s
    cases h : s.audioDuration <;> simp only [handleUseFullAudioChange, h]
    split <;> rfl
  · intro s d h hd
    simp [handleUseFullAudioChange, h, hd]
  · intro s h
    simp [handleUseFullAudioChange, h]
  · intro s h
    simp [handleUseFullAudioChange, h]
  · intro v s
    obtain ⟨u, st, en, dur⟩ := s
    cases u <;> simp [handleTimeChange]
  · intro v s
    obtain ⟨u, st, en, dur⟩ := s
    cases u <;> simp [handleTimeChange]

/-- Witness for claim C7 at concrete dialog states with duration 10, unknown
duration, and duration 0. -/
theorem claim_C7_witness :
    handleUseFullAudioChange true ⟨false, "3".data, "7".data, some 10⟩ =
      ⟨true, ['0'], numToString 10, some 10⟩ ∧
    handleUseFullAudioChange true ⟨false, "3".data, "7".data, none⟩ =
      ⟨true, "3".data, "7".data, none⟩ ∧
    handleUseFullAudioChange true ⟨false, "3".data, "7".data, some 0⟩ =
      ⟨true, "3".data, "7".data, some 0⟩ :=
  ⟨claim_C7.2.1 ⟨false, "3".data, "7".data, some 10⟩ 10 rfl (by norm_num),
   claim_C7.2.2.1 ⟨false, "3".data, "7".data, none⟩ rfl,
   claim_C7.2.2.2.1 ⟨false, "3".data, "7".data, some 0⟩ rfl⟩

/-- Counterexample to claim C7 as stated: checking the full-audio box with an
unprobed duration leaves `startTime` at its previous value `"5"` — it is not
forced to 0, and `endTime` is likewise left at `"7"` rather than any
sentinel. -/
theorem claim_C7_cex :
    (handleUseFullAudioChange true ⟨false, "5".data, "7".data, none⟩).startTime = "5".data ∧
    (handleUseFullAudioChange true ⟨false, "5".data, "7".data, none⟩).endTime = "7".data ∧
    "5".data ≠ ['0'] := by
  refine ⟨by decide, by decide, by decide⟩

/-- Claim C8 (amended): the transcription gate `canTranscribe` depends only
on the presence of an audio file path, the model-loaded flag and the
not-already-transcribing flag; `handleTranscribe` forwards the state's
`useFullAudio`/`startTime`/`endTime` verbatim in the request, and there are
reachable states in which the gate passes while `useFullAudio` is false and
the submitted pair fails the validator — the transcription path is NOT gated
on `validate()`. -/
theorem claim_C8 :
    (∀ s1 s2 : AState, s1.audioFilePath = s2.audioFilePath →
        s1.modelLoaded = s2.modelLoaded → s1.isTranscribing = s2.isTranscribing →
        canTranscribe s1 = canTranscribe s2) ∧
    (∀ s : AState, transcribeRequest s = ⟨s.useFullAudio, s.startTime, s.endTime⟩) ∧
    (∃ s : AState, canTranscribe s = true ∧ s.useFullAudio = false ∧
        validateVals false s.startTime s.endTime s.audioDuration = false ∧
        transcribeRequest s = ⟨false, s.startTime, s.endTime⟩) := by
  refine ⟨?_, fun s => rfl, ?_⟩
  · intro s1 s2 h1 h2 h3
    rw [canTranscribe, canTranscribe, h1, h2, h3]
  · exact ⟨⟨some ("a.wav".data), true, false, false, .fin 5, .fin 5, some 10⟩,
      by decide, rfl, by decide, rfl⟩

/-- Witness for claim C8: two states sharing the three gate inputs have equal
gate values even though their range fields differ. -/
theorem claim_C8_witness :
    canTranscribe ⟨some ("a.wav".data), true, false, false, .fin 5, .fin 5, some 10⟩ =
      canTranscribe ⟨some ("a.wav".data), true, false, true, .fin 0, .fin 10, some 10⟩ :=
  claim_C8.1 _ _ rfl rfl rfl

/-- Counterexample to claim C8 as stated: with a file loaded, the model ready
and no transcription running, the gate passes although `useFullAudio` is
false and the pair `(5, 5)` fails the validator (`end <= start`), so a
request carrying an invalid explicit range is issued. -/
theorem claim_C8_cex :
    canTranscribe ⟨some ("a.wav".data), true, false, false, .fin 5, .fin 5, some 10⟩ = true ∧
    (transcribeRequest
        ⟨some ("a.wav".data), true, false, false, .fin 5, .fin 5, some 10⟩).useFullAudio =
      false ∧
    validateVals false (.fin 5) (.fin 5) (some 10) = false := by
  refine ⟨by decide, by decide, by decide⟩

end AudioApp
